import Mathlib

/-!
Verification of the attribute-predicate evaluation core of the selectors VM
(src/selectors_vm/attribute_matcher.rs), shallowly embedded over byte lists.

Byte strings are `List Nat` (each element a byte value). Attribute spans are
`(start, end)` ranges into the input buffer, sliced with `drop`/`take`, which
mirrors `Chunk::slice`. Fallible code (the slice `&haystack[..rest.len()]`
in `has_attr_with_substring`, which panics when out of bounds) is embedded
with `Option Bool`, `none` standing for a panic.
-/

namespace LolHtml

/-- Byte strings: lists of byte values. -/
abbrev Bytes := List Nat

/-- `u8::to_ascii_lowercase`: fold an ASCII uppercase letter to lowercase. -/
def toAsciiLowercase (b : Nat) : Nat :=
  if 65 ≤ b ∧ b ≤ 90 then b + 32 else b

/-- `u8::to_ascii_uppercase`: fold an ASCII lowercase letter to uppercase. -/
def toAsciiUppercase (b : Nat) : Nat :=
  if 97 ≤ b ∧ b ≤ 122 then b - 32 else b

/-- `is_attr_whitespace` from attribute_matcher.rs: the five ASCII attribute
whitespace bytes (space, line feed, carriage return, tab, form feed). -/
def is_attr_whitespace (b : Nat) : Bool :=
  b == 32 || b == 10 || b == 13 || b == 9 || b == 12

/-- A byte range into the input buffer (`Range` from crate::base). -/
structure Range where
  start : Nat
  «end» : Nat

/-- One attribute's spans: `AttributeOutline` from the parser. -/
structure AttributeOutline where
  name : Range
  value : Range

/-- `Chunk::slice`: the sub-slice of the input buffer covered by a range. -/
def slice (input : Bytes) (r : Range) : Bytes :=
  (input.drop r.start).take (r.«end» - r.start)

/-- Rust `[u8]::split(pred)`: split a byte slice at every byte satisfying the
predicate, the separators not included; the empty slice yields one empty
sub-slice, and consecutive separators yield empty sub-slices between them. -/
def splitBytes (p : Nat → Bool) : Bytes → List Bytes
  | [] => [[]]
  | b :: rest =>
    if p b then
      [] :: splitBytes p rest
    else
      match splitBytes p rest with
      | t :: ts => (b :: t) :: ts
      | [] => [[b]]

/-- Resolved (unconditional) case sensitivity, from the selectors crate.
Modelled from the spec: comparison is either exact byte equality or
ASCII-case-insensitive byte equality. -/
inductive CaseSensitivity where
  | CaseSensitive
  | AsciiCaseInsensitive

/-- Case-fold a byte string according to a resolved case sensitivity:
the identity when case-sensitive, ASCII lowercasing when insensitive. -/
def foldCase : CaseSensitivity → Bytes → Bytes
  | .CaseSensitive, v => v
  | .AsciiCaseInsensitive, v => v.map toAsciiLowercase

/-- `CaseSensitivity::eq` from the selectors crate. Modelled from the spec:
exact byte equality when case-sensitive, `eq_ignore_ascii_case` (equal length
and bytewise equality after ASCII case folding) when insensitive. -/
def CaseSensitivity.eq (cs : CaseSensitivity) (a b : Bytes) : Bool :=
  foldCase cs a == foldCase cs b

/-- Compile-time case-sensitivity rule attached to an operand, from the
selectors crate. Modelled from the spec: either unconditionally sensitive /
insensitive, or "insensitive unless foreign" (sensitivity depends on the
run-time HTML-element flag). -/
inductive ParsedCaseSensitivity where
  | CaseSensitive
  | AsciiCaseInsensitive
  | AsciiCaseInsensitiveIfInHtmlElementInHtmlDocument

/-- `ParsedCaseSensitivity::to_unconditional` from the selectors crate.
Modelled from the spec: an operand marked "insensitive unless foreign"
behaves case-insensitively on HTML elements and case-sensitively on
foreign-content elements. -/
def ParsedCaseSensitivity.to_unconditional :
    ParsedCaseSensitivity → Bool → CaseSensitivity
  | .CaseSensitive, _ => .CaseSensitive
  | .AsciiCaseInsensitive, _ => .AsciiCaseInsensitive
  | .AsciiCaseInsensitiveIfInHtmlElementInHtmlDocument, is_html_element =>
    if is_html_element then .AsciiCaseInsensitive else .CaseSensitive

/-- `CompiledAttributeExprOperand` from the selectors VM compiler: a
pre-lowercased attribute name, the literal expected value, and the
case-sensitivity rule. -/
structure CompiledAttributeExprOperand where
  name : Bytes
  value : Bytes
  case_sensitivity : ParsedCaseSensitivity

/-- The attribute matcher: the input buffer, the tag's attribute span table
(in document order) and the HTML-namespace flag. The `id`/`class`
memoization cells are modelled separately (see `memoRun`), since the
matcher's predicates are pure in the values they produce. -/
structure AttributeMatcher where
  input : Bytes
  attributes : List AttributeOutline
  is_html_element : Bool

/-- The static `ID_ATTR` byte string "id". -/
def ID_ATTR : Bytes := [105, 100]

/-- The static `CLASS_ATTR` byte string "class". -/
def CLASS_ATTR : Bytes := [99, 108, 97, 115, 115]

/-- `AttributeMatcher::find`, translated literally: scan the span table for
the first attribute whose name span has the target's length and whose name
bytes, case-folded, satisfy the loop's test. NOTE: the source's inner loop
rejects a candidate as soon as a case-folded byte EQUALS the corresponding
target byte (`==` where name equality would need `!=`), so the predicate
kept here accepts exactly the candidates all of whose case-folded bytes
differ from the target's. -/
def AttributeMatcher.find (m : AttributeMatcher) (lowercased_name : Bytes) :
    Option AttributeOutline :=
  m.attributes.find? fun a =>
    if lowercased_name.length != a.name.«end» - a.name.start then
      false
    else
      let attr_name := slice m.input a.name
      (List.range attr_name.length).all fun i =>
        !(toAsciiLowercase (attr_name.getD i 0) == lowercased_name.getD i 0)

/-- `AttributeMatcher::get_value`: slice the found attribute's value span. -/
def AttributeMatcher.get_value (m : AttributeMatcher)
    (lowercased_name : Bytes) : Option Bytes :=
  (m.find lowercased_name).map fun a => slice m.input a.value

/-- `AttributeMatcher::has_attribute`. -/
def AttributeMatcher.has_attribute (m : AttributeMatcher)
    (lowercased_name : Bytes) : Bool :=
  (m.find lowercased_name).isSome

/-- `AttributeMatcher::id_matches` (value-level semantics; memoization is
modelled by `memoRun`): exact byte equality against the resolved `id`. -/
def AttributeMatcher.id_matches (m : AttributeMatcher) (id : Bytes) : Bool :=
  match m.get_value ID_ATTR with
  | some actual_id => actual_id == id
  | none => false

/-- `AttributeMatcher::has_class` (value-level semantics): split the resolved
`class` value on attribute whitespace and compare each token exactly. -/
def AttributeMatcher.has_class (m : AttributeMatcher)
    (class_name : Bytes) : Bool :=
  match m.get_value CLASS_ATTR with
  | some cls =>
    (splitBytes is_attr_whitespace cls).any fun actual_class_name =>
      actual_class_name == class_name
  | none => false

/-- `AttributeMatcher::value_matches`: resolve the operand's attribute and
delegate to the caller's comparison; absence is `false`. -/
def AttributeMatcher.value_matches (m : AttributeMatcher) (name : Bytes)
    (matcher : Bytes → Bool) : Bool :=
  match m.get_value name with
  | some value => matcher value
  | none => false

/-- `AttributeMatcher::attr_eq`: full-value equality under the resolved case
sensitivity. -/
def AttributeMatcher.attr_eq (m : AttributeMatcher)
    (operand : CompiledAttributeExprOperand) : Bool :=
  m.value_matches operand.name fun actual_value =>
    CaseSensitivity.eq
      (operand.case_sensitivity.to_unconditional m.is_html_element)
      actual_value operand.value

/-- `AttributeMatcher::matches_splitted_by`: split the resolved value with the
caller's byte predicate and compare each part under the resolved case
sensitivity. -/
def AttributeMatcher.matches_splitted_by (m : AttributeMatcher)
    (operand : CompiledAttributeExprOperand) (split_by : Nat → Bool) : Bool :=
  m.value_matches operand.name fun actual_value =>
    let case_sensitivity :=
      operand.case_sensitivity.to_unconditional m.is_html_element
    (splitBytes split_by actual_value).any fun part =>
      CaseSensitivity.eq case_sensitivity part operand.value

/-- `AttributeMatcher::has_attr_with_prefix`: the resolved value is at least
as long as the operand value and its leading sub-slice of that length equals
the operand value under the resolved case sensitivity. -/
def has_attr_with_prefix (m : AttributeMatcher)
    (operand : CompiledAttributeExprOperand) : Bool :=
  m.value_matches operand.name fun actual_value =>
    let case_sensitivity :=
      operand.case_sensitivity.to_unconditional m.is_html_element
    let prefix_len := operand.value.length
    decide (actual_value.length ≥ prefix_len) &&
      CaseSensitivity.eq case_sensitivity
        (actual_value.take prefix_len) operand.value

/-- `AttributeMatcher::has_attr_with_suffix`: symmetric, over the trailing
sub-slice. -/
def has_attr_with_suffix (m : AttributeMatcher)
    (operand : CompiledAttributeExprOperand) : Bool :=
  m.value_matches operand.name fun actual_value =>
    let case_sensitivity :=
      operand.case_sensitivity.to_unconditional m.is_html_element
    let suffix_len := operand.value.length
    let value_len := actual_value.length
    decide (value_len ≥ suffix_len) &&
      CaseSensitivity.eq case_sensitivity
        (actual_value.drop (value_len - suffix_len)) operand.value

/-- The anchored-search loop of `has_attr_with_substring`. The source finds
the next occurrence of the needle's first byte with `memchr`/`memchr2`,
steps just past it (`haystack = &haystack[pos + 1..]`) and compares the
next `rest.length` bytes; here the `memchr` jump is embedded as a
left-to-right scan that skips non-anchor bytes one at a time, which visits
exactly the same anchor positions in the same order. At an anchor the
source slices `&haystack[..rest.len()]` WITHOUT a bounds check, so when
fewer than `rest.length` bytes remain past the anchor the slice panics,
modelled as `none`; when no anchor remains the loop returns `false`. -/
def substringLoop (case_sensitivity : CaseSensitivity)
    (first_matches : Nat → Bool) (rest : Bytes) : Bytes → Option Bool
  | [] => some false
  | b :: haystack2 =>
    if first_matches b then
      if rest.length ≤ haystack2.length then
        if CaseSensitivity.eq case_sensitivity
            (haystack2.take rest.length) rest then
          some true
        else
          substringLoop case_sensitivity first_matches rest haystack2
      else
        none
    else
      substringLoop case_sensitivity first_matches rest haystack2

/-- `AttributeMatcher::has_attr_with_substring`: empty operand value is
`false`; otherwise anchor on the needle's first byte (both case variants
when insensitive) and verify the remainder at each anchor. `none` models
the out-of-bounds slice panic inside the loop. -/
def has_attr_with_substring (m : AttributeMatcher)
    (operand : CompiledAttributeExprOperand) : Option Bool :=
  match m.get_value operand.name with
  | none => some false
  | some actual_value =>
    let case_sensitivity :=
      operand.case_sensitivity.to_unconditional m.is_html_element
    match operand.value with
    | [] => some false
    | first_byte :: rest =>
      let first_matches : Nat → Bool :=
        match case_sensitivity with
        | .CaseSensitive => fun b => b == first_byte
        | .AsciiCaseInsensitive => fun b =>
          b == toAsciiLowercase first_byte || b == toAsciiUppercase first_byte
      substringLoop case_sensitivity first_matches rest actual_value

/-- `LazyCell::borrow_with` over one memoization cell, run on a whole
sequence of queries: an empty cell computes and stores the value (counting
one attribute resolution), a filled cell is read back without recomputing.
Returns the query results in order and the number of resolutions
performed. This models the `id`/`class` `MemoizedAttrValue` cells of the
matcher, whose predicates are otherwise pure. -/
def memoRun (compute : Unit → Option Bytes)
    (use : Option Bytes → Bytes → Bool) :
    List Bytes → Option (Option Bytes) → List Bool × Nat
  | [], _ => ([], 0)
  | q :: qs, some v =>
    let r := memoRun compute use qs (some v)
    (use v q :: r.1, r.2)
  | q :: qs, none =>
    let v := compute ()
    let r := memoRun compute use qs (some v)
    (use v q :: r.1, 1 + r.2)

/-- The comparison `id_matches` applies to the memoized `id` value. -/
def idCheck (v : Option Bytes) (id : Bytes) : Bool :=
  match v with
  | some actual_id => actual_id == id
  | none => false

/-- The comparison `has_class` applies to the memoized `class` value. -/
def classCheck (v : Option Bytes) (class_name : Bytes) : Bool :=
  match v with
  | some cls =>
    (splitBytes is_attr_whitespace cls).any fun actual_class_name =>
      actual_class_name == class_name
  | none => false

/-!  Helper lemmas  -/

theorem foldCase_length (cs : CaseSensitivity) (v : Bytes) :
    (foldCase cs v).length = v.length := by
  cases cs <;> simp [foldCase]

theorem foldCase_take (cs : CaseSensitivity) (n : Nat) (v : Bytes) :
    foldCase cs (v.take n) = (foldCase cs v).take n := by
  cases cs <;> simp [foldCase, List.map_take]

theorem foldCase_drop (cs : CaseSensitivity) (n : Nat) (v : Bytes) :
    foldCase cs (v.drop n) = (foldCase cs v).drop n := by
  cases cs <;> simp [foldCase, List.map_drop]

theorem caseSensitivity_eq_iff (cs : CaseSensitivity) (a b : Bytes) :
    CaseSensitivity.eq cs a b = true ↔ foldCase cs a = foldCase cs b := by
  simp [CaseSensitivity.eq]

theorem splitBytes_no_separator (v : Bytes) :
    splitBytes (fun _ => false) v = [v] := by
  induction v with
  | nil => rfl
  | cons b rest ih => simp [splitBytes, ih]

theorem memoRun_filled (compute : Unit → Option Bytes)
    (use : Option Bytes → Bytes → Bool) (v : Option Bytes) (qs : List Bytes) :
    memoRun compute use qs (some v) = (qs.map (use v), 0) := by
  induction qs with
  | nil => rfl
  | cons q qs ih => simp [memoRun, ih]

theorem memoRun_fresh (compute : Unit → Option Bytes)
    (use : Option Bytes → Bytes → Bool) (qs : List Bytes) :
    (memoRun compute use qs none).1 = qs.map (use (compute ()))
    ∧ (memoRun compute use qs none).2 ≤ 1 := by
  cases qs with
  | nil => simp [memoRun]
  | cons q qs => simp [memoRun, memoRun_filled]

theorem take_eq_iff_isPrefix (cs : CaseSensitivity) (w v : Bytes) :
    (decide (v.length ≥ w.length) &&
        CaseSensitivity.eq cs (v.take w.length) w) = true
      ↔ foldCase cs w <+: foldCase cs v := by
  rw [Bool.and_eq_true, decide_eq_true_eq, caseSensitivity_eq_iff]
  constructor
  · rintro ⟨hlen, heq⟩
    rw [List.prefix_iff_eq_take, foldCase_length, ← foldCase_take]
    exact heq.symm
  · intro hpre
    have hlen : w.length ≤ v.length := by
      have h1 := hpre.length_le
      rwa [foldCase_length, foldCase_length] at h1
    have heq := List.prefix_iff_eq_take.mp hpre
    rw [foldCase_length] at heq
    refine ⟨hlen, ?_⟩
    rw [foldCase_take]
    exact heq.symm

theorem drop_eq_iff_isSuffix (cs : CaseSensitivity) (w v : Bytes) :
    (decide (v.length ≥ w.length) &&
        CaseSensitivity.eq cs (v.drop (v.length - w.length)) w) = true
      ↔ foldCase cs w <:+ foldCase cs v := by
  rw [Bool.and_eq_true, decide_eq_true_eq, caseSensitivity_eq_iff]
  constructor
  · rintro ⟨hlen, heq⟩
    rw [List.suffix_iff_eq_drop, foldCase_length, foldCase_length,
      ← foldCase_drop]
    exact heq.symm
  · intro hsuf
    have hlen : w.length ≤ v.length := by
      have h1 := hsuf.length_le
      rwa [foldCase_length, foldCase_length] at h1
    have heq := List.suffix_iff_eq_drop.mp hsuf
    rw [foldCase_length, foldCase_length] at heq
    refine ⟨hlen, ?_⟩
    rw [foldCase_drop]
    exact heq.symm

/-!  Claim theorems  -/

/-- C1: FAILS on the code (code bug). The claim says `has_attribute` and
`find` succeed exactly when some attribute's case-folded name equals the
target. The source's name-comparison loop is inverted (it disqualifies a
candidate when a case-folded byte EQUALS the target byte), so on a tag
whose single attribute is literally named `id` the lookup of `id` fails,
while on a tag whose single attribute is named `ab` the lookup of the
unrelated name `xy` succeeds. -/
theorem find_polarity_bug_eval :
    AttributeMatcher.has_attribute
        ⟨[105, 100, 102, 111, 111], [⟨⟨0, 2⟩, ⟨2, 5⟩⟩], true⟩ ID_ATTR = false
    ∧ AttributeMatcher.has_attribute
        ⟨[97, 98, 102, 111, 111], [⟨⟨0, 2⟩, ⟨2, 5⟩⟩], true⟩
        [120, 121] = true :=
  ⟨rfl, rfl⟩

/-- C2: FAILS on the code (code bug). With every attribute span inside the
input buffer (buffer "aba", name span [0,2), value span [2,3)),
`has_attr_with_substring` on the resolved value "a" with operand value
"ab" anchors on the final byte `a` and then evaluates the unguarded slice
`&haystack[..rest.len()]` with an empty remaining haystack: it panics
(modelled `none`) instead of resolving to a boolean. -/
theorem substring_slice_panic_eval :
    has_attr_with_substring ⟨[97, 98, 97], [⟨⟨0, 2⟩, ⟨2, 3⟩⟩], true⟩
      ⟨[120, 121], [97, 98], .CaseSensitive⟩ = none :=
  rfl

/-- C3: FAILS on the code (code bug). The resolved value "ba" does not
contain the operand value "ab" as a contiguous substring, so the claim
requires the predicate to return `false`; the code instead anchors on the
final byte `a` and hits the unguarded slice past the end of the haystack,
panicking (modelled `none`) rather than returning a boolean at all. -/
theorem substring_contains_divergence_eval :
    has_attr_with_substring ⟨[99, 100, 98, 97], [⟨⟨0, 2⟩, ⟨2, 4⟩⟩], true⟩
        ⟨[120, 121], [97, 98], .CaseSensitive⟩ = none
    ∧ ¬ [97, 98] <:+: [98, 97] :=
  ⟨rfl, by decide⟩

/-- C4: FAILS on the code (code bug). Because the name-comparison loop in
`find` is inverted, a tag whose single attribute is `id="foo"` makes
`id_matches("foo")` return `false`, and a tag with the single unrelated
attribute `ab="foo"` (no `id` attribute at all) makes `id_matches("foo")`
return `true`. -/
theorem id_matches_polarity_bug_eval :
    AttributeMatcher.id_matches
        ⟨[105, 100, 102, 111, 111], [⟨⟨0, 2⟩, ⟨2, 5⟩⟩], true⟩
        [102, 111, 111] = false
    ∧ AttributeMatcher.id_matches
        ⟨[97, 98, 102, 111, 111], [⟨⟨0, 2⟩, ⟨2, 5⟩⟩], true⟩
        [102, 111, 111] = true :=
  ⟨rfl, rfl⟩

/-- C5: FAILS on the code (code bug). On a tag whose single attribute is
`class="a b"`, the whitespace split of the value does contain the token
"a", but the inverted name comparison in `find` makes the `class` lookup
fail, so `has_class("a")` returns `false` where the claim requires
`true`. -/
theorem has_class_polarity_bug_eval :
    AttributeMatcher.has_class
        ⟨[99, 108, 97, 115, 115, 97, 32, 98], [⟨⟨0, 5⟩, ⟨5, 8⟩⟩], true⟩
        [97] = false
    ∧ splitBytes is_attr_whitespace [97, 32, 98] = [[97], [98]] :=
  ⟨rfl, rfl⟩

/-- C6: for every matcher and operand, `has_attr_with_prefix` holds exactly
when the attribute resolves to a value of which the operand value is a
leading sub-slice under the resolved case sensitivity (expressed as: the
case-folded operand value is a list prefix of the case-folded resolved
value), `has_attr_with_suffix` is the symmetric statement with a list
suffix, and an empty operand value makes both predicates coincide with
mere presence of the resolved attribute. -/
theorem prefix_suffix_characterization (m : AttributeMatcher)
    (op : CompiledAttributeExprOperand) :
    (( has_attr_with_prefix m op) = true ↔
      ∃ v, m.get_value op.name = some v ∧
        foldCase (op.case_sensitivity.to_unconditional m.is_html_element)
            op.value <+:
          foldCase (op.case_sensitivity.to_unconditional m.is_html_element)
            v)
    ∧ (( has_attr_with_suffix m op) = true ↔
      ∃ v, m.get_value op.name = some v ∧
        foldCase (op.case_sensitivity.to_unconditional m.is_html_element)
            op.value <:+
          foldCase (op.case_sensitivity.to_unconditional m.is_html_element)
            v)
    ∧ (op.value = [] →
        ( has_attr_with_prefix m op) = (m.get_value op.name).isSome
        ∧ ( has_attr_with_suffix m op) = (m.get_value op.name).isSome) := by
  unfold has_attr_with_prefix has_attr_with_suffix
    AttributeMatcher.value_matches
  cases hv : m.get_value op.name with
  | none =>
    refine ⟨?_, ?_, ?_⟩ <;> simp
  | some v =>
    refine ⟨?_, ?_, ?_⟩
    · simpa using take_eq_iff_isPrefix
        (op.case_sensitivity.to_unconditional m.is_html_element) op.value v
    · simpa using drop_eq_iff_isSuffix
        (op.case_sensitivity.to_unconditional m.is_html_element) op.value v
    · intro hempty
      rw [hempty]
      simp [CaseSensitivity.eq]

/-- Witness for C6 at a concrete input: on a tag carrying the value "Hello"
(reachable through the inverted `find` via the attribute name "ab" and the
operand name "xy"), the case-sensitive operand value "He" is accepted as a
prefix. -/
theorem prefix_suffix_characterization_witness :
    ( has_attr_with_prefix
      ⟨[97, 98, 72, 101, 108, 108, 111], [⟨⟨0, 2⟩, ⟨2, 7⟩⟩], true⟩
      ⟨[120, 121], [72, 101], .CaseSensitive⟩) = true :=
  (prefix_suffix_characterization
      ⟨[97, 98, 72, 101, 108, 108, 111], [⟨⟨0, 2⟩, ⟨2, 7⟩⟩], true⟩
      ⟨[120, 121], [72, 101], .CaseSensitive⟩).1.mpr
    ⟨[72, 101, 108, 108, 111], rfl, by decide⟩

/-- C7: for an operand whose rule is "insensitive unless foreign",
`attr_eq` compares the resolved value to the operand value
ASCII-case-insensitively when the matcher's HTML-element flag is set and
byte-exactly when it is not. -/
theorem attr_eq_case_resolution (m : AttributeMatcher)
    (op : CompiledAttributeExprOperand)
    (hcs : op.case_sensitivity =
      ParsedCaseSensitivity.AsciiCaseInsensitiveIfInHtmlElementInHtmlDocument) :
    m.attr_eq op = true ↔
      ∃ v, m.get_value op.name = some v ∧
        (if m.is_html_element then
          v.map toAsciiLowercase = op.value.map toAsciiLowercase
        else v = op.value) := by
  unfold AttributeMatcher.attr_eq AttributeMatcher.value_matches
  rw [hcs]
  cases hv : m.get_value op.name with
  | none => simp
  | some v =>
    cases hhtml : m.is_html_element <;>
      simp [ParsedCaseSensitivity.to_unconditional, CaseSensitivity.eq,
        foldCase, hhtml]

/-- Witness for C7 at a concrete input: resolved value "Hello" against
operand value "hello" under "insensitive unless foreign" on an HTML
element evaluates to `true`. -/
theorem attr_eq_case_resolution_witness :
    AttributeMatcher.attr_eq
      ⟨[97, 98, 72, 101, 108, 108, 111], [⟨⟨0, 2⟩, ⟨2, 7⟩⟩], true⟩
      ⟨[120, 121], [104, 101, 108, 108, 111],
        .AsciiCaseInsensitiveIfInHtmlElementInHtmlDocument⟩ = true :=
  (attr_eq_case_resolution
      ⟨[97, 98, 72, 101, 108, 108, 111], [⟨⟨0, 2⟩, ⟨2, 7⟩⟩], true⟩
      ⟨[120, 121], [104, 101, 108, 108, 111],
        .AsciiCaseInsensitiveIfInHtmlElementInHtmlDocument⟩ rfl).mpr
    ⟨[72, 101, 108, 108, 111], rfl, by decide⟩

/-- C8: running any sequence of `id_matches` (respectively `has_class`)
queries against one matcher instance from a fresh memoization cell yields
exactly the pure per-query results (so equal arguments always give
identical answers, at whatever positions they occur) and performs at most
one attribute resolution in total. -/
theorem memoized_lookup_stable (m : AttributeMatcher) (qs : List Bytes) :
    (memoRun (fun _ => m.get_value ID_ATTR) idCheck qs none).1
        = qs.map m.id_matches
    ∧ (memoRun (fun _ => m.get_value ID_ATTR) idCheck qs none).2 ≤ 1
    ∧ (memoRun (fun _ => m.get_value CLASS_ATTR) classCheck qs none).1
        = qs.map m.has_class
    ∧ (memoRun (fun _ => m.get_value CLASS_ATTR) classCheck qs none).2 ≤ 1 := by
  obtain ⟨h1, h2⟩ := memoRun_fresh (fun _ => m.get_value ID_ATTR) idCheck qs
  obtain ⟨h3, h4⟩ := memoRun_fresh (fun _ => m.get_value CLASS_ATTR) classCheck qs
  refine ⟨?_, h2, ?_, h4⟩
  · rw [h1]
    rfl
  · rw [h3]
    rfl

/-- C9: FAILS on the code (code bug upstream of the claimed behavior). The
whitespace split of a value with a leading separator does produce an empty
token equal to the empty target, but on a tag whose single attribute is
`class=" a"` the inverted name comparison in `find` makes the `class`
lookup fail, so `has_class("")` returns `false` where the claim predicts
`true`. -/
theorem has_class_empty_target_eval :
    AttributeMatcher.has_class
        ⟨[99, 108, 97, 115, 115, 32, 97], [⟨⟨0, 5⟩, ⟨5, 7⟩⟩], true⟩
        [] = false
    ∧ splitBytes is_attr_whitespace [32, 97] = [[], [97]] :=
  ⟨rfl, rfl⟩

/-- C10: calling `matches_splitted_by` with a split predicate that holds of
no byte returns the same boolean as `attr_eq` on the same operand: with no
separators the whole resolved value is the single token, so the token-list
predicate degenerates to full-value equality under the same resolved case
sensitivity. -/
theorem splitted_by_no_separator_eq_attr_eq (m : AttributeMatcher)
    (op : CompiledAttributeExprOperand) :
    m.matches_splitted_by op (fun _ => false) = m.attr_eq op := by
  unfold AttributeMatcher.matches_splitted_by AttributeMatcher.attr_eq
    AttributeMatcher.value_matches
  cases hv : m.get_value op.name with
  | none => rfl
  | some v => simp [splitBytes_no_separator]

end LolHtml
